import Mathlib

/-!
Shallow embedding, in Lean 4, of the AI request orchestration helpers of the
repository under verification (an Electron interview-helper application).
The embedded modules are:

  src/shared/aiModels.ts              (model and provider policy)
  src/electron/processing/errors.ts   (error normalizer)
  src/electron/processing/promptBuilders.ts
  src/electron/processing/responseParsers.ts

JavaScript strings are modelled as Lean String values (unicode scalar
sequences), JavaScript numbers as exact rationals (no NaN or infinities),
and untyped JavaScript runtime values by the inductive type JSValue below.
All definitions are executable; theorems at the end settle the claims.
-/

/-! ## Generic character and string utilities mirroring JavaScript semantics -/

/-- The character class matched by a backslash-s in a JavaScript regular
expression, which is also the set trimmed by the JavaScript trim method:
whitespace plus line terminators. -/
def isJsWs (c : Char) : Bool :=
  let n := c.toNat
  n == 0x20 || n == 0x09 || n == 0x0a || n == 0x0b || n == 0x0c || n == 0x0d ||
  n == 0xa0 || n == 0x1680 || (0x2000 ≤ n && n ≤ 0x200a) ||
  n == 0x2028 || n == 0x2029 || n == 0x202f || n == 0x205f || n == 0x3000 || n == 0xfeff

/-- Drop leading and trailing JavaScript whitespace from a character list. -/
def jsTrimL (l : List Char) : List Char :=
  ((l.dropWhile isJsWs).reverse.dropWhile isJsWs).reverse

/-- The JavaScript String.prototype.trim method. -/
def jsTrim (s : String) : String :=
  String.mk (jsTrimL s.data)

/-- Occurrence of a pattern inside a character list, as a Bool
(the JavaScript String.prototype.includes method, on character lists). -/
def listContains (pat : List Char) : List Char → Bool
  | [] => pat.isEmpty
  | c :: t => pat.isPrefixOf (c :: t) || listContains pat t

/-- The JavaScript String.prototype.includes method. -/
def containsSub (s pat : String) : Bool :=
  listContains pat.data s.data

/-- Occurrence of a pattern inside a character list, as a proposition. -/
def OccursIn (pat l : List Char) : Prop :=
  ∃ s t, l = s ++ pat ++ t

/-- Split a character list at newline characters; mirrors how a JavaScript
multiline-anchored regular expression sees line boundaries. -/
def isLineTerm (c : Char) : Bool :=
  c = '\n' || c = '\r' || c = Char.ofNat 0x2028 || c = Char.ofNat 0x2029

/-- A character list free of line terminators (the inside of one line). -/
abbrev TermFree (p : List Char) : Prop := ∀ c ∈ p, isLineTerm c = false

/-- Split into lines at every line terminator, keeping each terminator with
the line it ends; the final segment has no terminator. This is how a
multiline-anchored JavaScript pattern sees line boundaries: caret matches
after, and dollar before, every LF, CR, LS and PS character individually. -/
def splitLines : List Char → List (List Char × Option Char)
  | [] => [([], none)]
  | c :: t =>
    if isLineTerm c then ([], some c) :: splitLines t
    else
      match splitLines t with
      | seg :: rest => ((c :: seg.1), seg.2) :: rest
      | [] => [([c], none)]

/-- Rejoin lines with their own terminators; inverse of splitLines. -/
def joinLines : List (List Char × Option Char) → List Char
  | [] => []
  | seg :: rest =>
    match seg.2 with
    | none => seg.1 ++ joinLines rest
    | some c => seg.1 ++ c :: joinLines rest

/-- ASCII lowercasing of a single character (the case folding performed by a
case-insensitive non-unicode JavaScript regular expression on ASCII letters). -/
def lowerAscii (c : Char) : Char :=
  if 'A' ≤ c ∧ c ≤ 'Z' then Char.ofNat (c.toNat + 32) else c

/-- Strip literal space characters (only U+0020) from both ends, as matched by
a [ ]* bracket at each end of a line-anchored pattern. -/
def trimSpacesL (l : List Char) : List Char :=
  ((l.dropWhile (· = ' ')).reverse.dropWhile (· = ' ')).reverse

/-- The JavaScript String.prototype.replace method with a plain string
pattern: replace the first occurrence only, on character lists. -/
def replaceFirstL (pat rep : List Char) : List Char → List Char
  | [] => []
  | c :: t =>
    if pat.isPrefixOf (c :: t) then rep ++ (c :: t).drop pat.length
    else c :: replaceFirstL pat rep t

/-- The JavaScript String.prototype.replace method with a plain string
pattern (first occurrence only). -/
def replaceFirstStr (s pat rep : String) : String :=
  String.mk (replaceFirstL pat.data rep.data s.data)

/-! ## src/shared/aiModels.ts -/

/-- The APIProvider union type of src/shared/aiModels.ts. -/
inductive APIProvider where
  | openai
  | gemini
  | anthropic
deriving DecidableEq

/-- The ModelCategoryKey union type of src/shared/aiModels.ts. -/
inductive ModelCategoryKey where
  | extractionModel
  | solutionModel
  | debuggingModel
  | answerModel
deriving DecidableEq

/-- Shape of one entry of DEFAULT_MODELS in src/shared/aiModels.ts. -/
structure DefaultModelSet where
  extractionModel : String
  solutionModel : String
  debuggingModel : String
  answerModel : String
  speechRecognitionModel : Option String
deriving DecidableEq

/-- DEFAULT_MODELS from src/shared/aiModels.ts. -/
def DEFAULT_MODELS : APIProvider → DefaultModelSet
  | .openai =>
    { extractionModel := "gpt-4o"
      solutionModel := "gpt-4o"
      debuggingModel := "gpt-4o"
      answerModel := "gpt-4o-mini"
      speechRecognitionModel := some "whisper-1" }
  | .gemini =>
    { extractionModel := "gemini-3-flash-preview"
      solutionModel := "gemini-3-flash-preview"
      debuggingModel := "gemini-3-flash-preview"
      answerModel := "gemini-3-flash-preview"
      speechRecognitionModel := some "gemini-3-flash-preview" }
  | .anthropic =>
    { extractionModel := "claude-3-7-sonnet-20250219"
      solutionModel := "claude-3-7-sonnet-20250219"
      debuggingModel := "claude-3-7-sonnet-20250219"
      answerModel := "claude-3-7-sonnet-20250219"
      speechRecognitionModel := none }

/-- Indexing a DefaultModelSet by a ModelCategoryKey, as the bracket access
DEFAULT_MODELS[provider][category] does in the source. -/
def DefaultModelSet.category (d : DefaultModelSet) : ModelCategoryKey → String
  | .extractionModel => d.extractionModel
  | .solutionModel => d.solutionModel
  | .debuggingModel => d.debuggingModel
  | .answerModel => d.answerModel

/-- ALLOWED_MODELS from src/shared/aiModels.ts. -/
def ALLOWED_MODELS : APIProvider → List String
  | .openai =>
    [ "gpt-5.3-codex", "gpt-5.2", "gpt-5.1-codex-max", "gpt-4o", "gpt-4o-mini" ]
  | .gemini =>
    [ "gemini-3-pro-preview", "gemini-3-flash-preview", "gemini-3-pro-image-preview",
      "gemini-1.5-pro", "gemini-1.5-flash", "gemini-2.0-flash-exp" ]
  | .anthropic =>
    [ "claude-3-7-sonnet-20250219", "claude-3-5-sonnet-20241022", "claude-3-opus-20240229" ]

/-- sanitizeModelSelection from src/shared/aiModels.ts (the console.warn side
effect of the fallback branch is dropped in this pure embedding). -/
def sanitizeModelSelection (model : String) (provider : APIProvider)
    (category : ModelCategoryKey) : String :=
  let allowed := ALLOWED_MODELS provider
  if allowed.contains model then model
  else (DEFAULT_MODELS provider).category category

/-! ## Theorems for claim C1 -/

/-- Claim C1: for every model string, provider and task category,
sanitizeModelSelection returns a member of the allow-list of that provider;
if the model is already in the allow-list the result equals the model; and
the function is idempotent on its own output. -/
theorem sanitizeModelSelection_total_idempotent
    (model : String) (provider : APIProvider) (category : ModelCategoryKey) :
    (ALLOWED_MODELS provider).contains
        (sanitizeModelSelection model provider category) = true ∧
    ((ALLOWED_MODELS provider).contains model = true →
        sanitizeModelSelection model provider category = model) ∧
    sanitizeModelSelection
        (sanitizeModelSelection model provider category) provider category =
      sanitizeModelSelection model provider category := by
  have hdef : (DEFAULT_MODELS provider).category category ∈ ALLOWED_MODELS provider := by
    cases provider <;> cases category <;> decide
  by_cases h : model ∈ ALLOWED_MODELS provider
  · refine ⟨?_, fun _ => ?_, ?_⟩ <;> simp [sanitizeModelSelection, h]
  · refine ⟨?_, fun hm => absurd (by simpa using hm) h, ?_⟩
    · simp [sanitizeModelSelection, h, hdef]
    · simp [sanitizeModelSelection, h, hdef]

/-- Witness for claim C1 at a concrete allowed model. -/
theorem sanitizeModelSelection_total_idempotent_witness :
    (ALLOWED_MODELS APIProvider.openai).contains "gpt-4o" = true ∧
    sanitizeModelSelection "gpt-4o" APIProvider.openai
        ModelCategoryKey.solutionModel = "gpt-4o" :=
  ⟨by decide,
    (sanitizeModelSelection_total_idempotent "gpt-4o" APIProvider.openai
      ModelCategoryKey.solutionModel).2.1 (by decide)⟩

/-! ## A model of untyped JavaScript runtime values

Numbers are modelled as exact rationals (the NaN and infinity values, and
float rounding, are outside the model; no claim depends on them). -/

/-- Untyped JavaScript values, as far as the embedded code can observe them. -/
inductive JSValue where
  | vUndefined
  | vNull
  | vBool (b : Bool)
  | vNum (q : Rat)
  | vStr (s : String)
  | vArr (elems : List JSValue)
  | vObj (fields : List (String × JSValue))

/-- Rendering of a JavaScript number in a template literal. Integral values
render as in JavaScript; non-integral rationals render as num/den (a model
level choice: the embedded code only ever renders integral statuses). -/
def numToStr (q : Rat) : String :=
  if q.den = 1 then toString q.num else toString q.num ++ "/" ++ toString q.den

/-- Property lookup on an object field list: the last binding of a key wins,
as in a JavaScript object. -/
def lookupLast (fields : List (String × JSValue)) (k : String) : Option JSValue :=
  match fields with
  | [] => none
  | (k2, v) :: rest =>
    match lookupLast rest k with
    | some r => some r
    | none => if k2 = k then some v else none

/-- Optional-chaining property access: undefined on anything that is not an
object with that key (matches every access site in the embedded code, which
either guards with a question mark or accesses a known object). -/
def getProp : JSValue → String → JSValue
  | .vObj fs, k => (lookupLast fs k).getD .vUndefined
  | _, _ => .vUndefined

/-- JavaScript truthiness. -/
def truthy : JSValue → Bool
  | .vUndefined => false
  | .vNull => false
  | .vBool b => b
  | .vNum q => decide (q ≠ 0)
  | .vStr s => decide (s ≠ "")
  | .vArr _ => true
  | .vObj _ => true

mutual

/-- JavaScript ToString conversion, as applied by template literals. -/
def jsToString : JSValue → String
  | .vUndefined => "undefined"
  | .vNull => "null"
  | .vBool b => cond b "true" "false"
  | .vNum q => numToStr q
  | .vStr s => s
  | .vArr xs => jsArrStr xs
  | .vObj _ => "[object Object]"

/-- Array rendering: elements joined by commas. -/
def jsArrStr : List JSValue → String
  | [] => ""
  | [x] => jsElemStr x
  | x :: y :: rest => jsElemStr x ++ "," ++ jsArrStr (y :: rest)

/-- Array element rendering: null and undefined render as the empty string. -/
def jsElemStr : JSValue → String
  | .vUndefined => ""
  | .vNull => ""
  | .vBool b => cond b "true" "false"
  | .vNum q => numToStr q
  | .vStr s => s
  | .vArr xs => jsArrStr xs
  | .vObj _ => "[object Object]"

end

/-! ## src/electron/processing/errors.ts -/

/-- The ProcessingProvider union type of src/electron/processing/types.ts. -/
inductive ProcessingProvider where
  | openai
  | gemini
  | anthropic
deriving DecidableEq

/-- The string a ProcessingProvider value interpolates as. -/
def ProcessingProvider.tag : ProcessingProvider → String
  | .openai => "openai"
  | .gemini => "gemini"
  | .anthropic => "anthropic"

/-- The guard of asProviderError: typeof error is object and error is not
null. Arrays satisfy it (typeof of an array is object in JavaScript). -/
def isObjectLike : JSValue → Bool
  | .vObj _ => true
  | .vArr _ => true
  | _ => false

/-- asProviderError from src/electron/processing/errors.ts. -/
def asProviderError (error : JSValue) : JSValue :=
  if isObjectLike error then error else .vObj []

/-- formatProviderError from src/electron/processing/errors.ts. -/
def formatProviderError (provider : ProcessingProvider) (error : JSValue)
    (context : String) : String :=
  let providerError := asProviderError error
  let status : Option Rat :=
    match getProp providerError "status" with
    | .vNum n => some n
    | _ =>
      match getProp (getProp providerError "response") "status" with
      | .vNum n => some n
      | _ => none
  let msg1 := getProp providerError "message"
  let msg2 :=
    getProp (getProp (getProp (getProp providerError "response") "data") "error") "message"
  let message : String :=
    if truthy msg1 then jsToString msg1
    else if truthy msg2 then jsToString msg2
    else "Unknown error"
  let statusPart : String :=
    match status with
    | some n => " (status " ++ numToStr n ++ ")"
    | none => ""
  "[" ++ provider.tag ++ "] " ++ context ++ " failed" ++ statusPart ++ ": " ++ message

/-- getErrorMessage from src/electron/processing/errors.ts. -/
def getErrorMessage (error : JSValue) (fallback : String) : String :=
  let providerError := asProviderError error
  if truthy (getProp providerError "message") then jsToString (getProp providerError "message")
  else fallback

/-! ## Theorems for claims C3 and C8 -/

/-- Normalizing through asProviderError does not change any property read. -/
theorem getProp_asProviderError (e : JSValue) (k : String) :
    getProp (asProviderError e) k = getProp e k := by
  cases e <;> rfl

/-- The status selection the specification describes: error.status when it is
a number, else error.response.status when it is a number, else nothing. -/
def statusSpec (error : JSValue) : Option Rat :=
  match getProp error "status" with
  | .vNum n => some n
  | _ =>
    match getProp (getProp error "response") "status" with
    | .vNum n => some n
    | _ => none

/-- The message selection the specification describes: error.message, else
error.response.data.error.message, else the literal "Unknown error" (each
step falling through when the value is absent or empty). -/
def messageSpec (error : JSValue) : String :=
  let m1 := getProp error "message"
  let m2 := getProp (getProp (getProp (getProp error "response") "data") "error") "message"
  if truthy m1 then jsToString m1
  else if truthy m2 then jsToString m2
  else "Unknown error"

/-- Claim C3: formatProviderError renders provider, context, the selected
status (omitting the parenthetical exactly when no numeric status exists,
with status zero still rendered) and the selected message; including the
concrete example from the specification. -/
theorem formatProviderError_renders_spec :
    (∀ (provider : ProcessingProvider) (error : JSValue) (context : String),
      formatProviderError provider error context =
        "[" ++ provider.tag ++ "] " ++ context ++ " failed" ++
          (match statusSpec error with
           | some n => " (status " ++ numToStr n ++ ")"
           | none => "") ++ ": " ++ messageSpec error) ∧
    formatProviderError ProcessingProvider.openai
        (.vObj [("response", .vObj
          [("status", .vNum 429),
           ("data", .vObj [("error", .vObj [("message", .vStr "quota")])])])])
        "Processing screenshots" =
      "[openai] Processing screenshots failed (status 429): quota" ∧
    formatProviderError ProcessingProvider.openai (.vObj [("status", .vNum 0)])
        "Processing screenshots" =
      "[openai] Processing screenshots failed (status 0): Unknown error" := by
  refine ⟨fun provider error context => ?_, by decide, by decide⟩
  simp only [formatProviderError, statusSpec, messageSpec, getProp_asProviderError]

/-- The claim C8 notion of a non-null object (arrays are objects to typeof). -/
def IsNonNullObject (v : JSValue) : Prop :=
  (∃ fs, v = .vObj fs) ∨ (∃ xs, v = .vArr xs)

/-- Claim C8: asProviderError returns non-null objects unchanged and returns
the empty object on every other input; it never throws (it is total by
construction); including the concrete examples from the specification. -/
theorem asProviderError_shape (v : JSValue) :
    (IsNonNullObject v → asProviderError v = v) ∧
    (¬ IsNonNullObject v → asProviderError v = .vObj []) ∧
    asProviderError (.vStr "boom") = .vObj [] ∧
    asProviderError (.vObj [("status", .vNum 1)]) = .vObj [("status", .vNum 1)] := by
  refine ⟨fun h => ?_, fun h => ?_, rfl, rfl⟩
  · rcases h with ⟨fs, rfl⟩ | ⟨xs, rfl⟩ <;> rfl
  · cases v with
    | vObj fs => exact absurd (Or.inl ⟨fs, rfl⟩) h
    | vArr xs => exact absurd (Or.inr ⟨xs, rfl⟩) h
    | _ => rfl

/-- Witness for claim C8 at concrete inputs. -/
theorem asProviderError_shape_witness :
    asProviderError (.vNum 3) = .vObj [] ∧
    asProviderError (.vObj [("a", .vNull)]) = .vObj [("a", .vNull)] :=
  ⟨(asProviderError_shape (.vNum 3)).2.1
      (by rintro (⟨fs, h⟩ | ⟨xs, h⟩) <;> cases h),
    (asProviderError_shape (.vObj [("a", .vNull)])).1 (Or.inl ⟨_, rfl⟩)⟩

/-! ## src/electron/processing/responseParsers.ts: JSON extraction

The fenced-block pattern is three backticks, then backslash-s star, then a
run of word characters (the optional language tag), then backslash-s star,
then a newline, then a lazy capture up to the next three backticks. The
scan below reproduces the backtracking search: each quantifier is tried
greedily and shortened on failure, and the lazy capture stops at the first
closing fence, which cannot lie inside the consumed quantifier region. -/

/-- The backtick character (written by code point). -/
def backtick : Char := Char.ofNat 96

/-- ASCII digit test (backslash-d of a non-unicode JavaScript pattern, and
the JSON digit class). -/
def isDigitChar (c : Char) : Bool := '0' ≤ c && c ≤ '9'

/-- The word characters admitted in a fence language tag. -/
def isWordFence (c : Char) : Bool :=
  ('A' ≤ c && c ≤ 'Z') || ('a' ≤ c && c ≤ 'z') || ('0' ≤ c && c ≤ '9') ||
  c = '_' || c = '-'

/-- Lazy capture: the characters before the first closing fence, if any. -/
def findClose : List Char → Option (List Char)
  | [] => none
  | c :: t =>
    if c = backtick ∧ t.take 2 = [backtick, backtick] then some []
    else (findClose t).map (c :: ·)

/-- After the whitespace and tag quantifiers: require a newline, then the
lazy capture up to the closing fence. -/
def fenceFromNl : List Char → Option (List Char)
  | c :: t => if c = '\n' then findClose t else none
  | [] => none

/-- Try the second whitespace quantifier at length k, k-1, ..., 0. -/
def tryCs (l : List Char) : Nat → Option (List Char)
  | 0 => fenceFromNl l
  | k + 1 =>
    match fenceFromNl (l.drop (k + 1)) with
    | some r => some r
    | none => tryCs l k

/-- Try the language-tag quantifier at length j, j-1, ..., 0; for each
extent the following whitespace quantifier starts greedy. -/
def tryBs (l : List Char) : Nat → Option (List Char)
  | 0 => tryCs l ((l.takeWhile isJsWs).length)
  | j + 1 =>
    match tryCs (l.drop (j + 1)) (((l.drop (j + 1)).takeWhile isJsWs).length) with
    | some r => some r
    | none => tryBs l j

/-- Try the first whitespace quantifier at length k, k-1, ..., 0; for each
extent the tag quantifier starts greedy. -/
def tryAs (l : List Char) : Nat → Option (List Char)
  | 0 => tryBs l ((l.takeWhile isWordFence).length)
  | k + 1 =>
    match tryBs (l.drop (k + 1)) (((l.drop (k + 1)).takeWhile isWordFence).length) with
    | some r => some r
    | none => tryAs l k

/-- Match the pattern tail right after an opening fence. -/
def matchFenceTail (l : List Char) : Option (List Char) :=
  tryAs l ((l.takeWhile isJsWs).length)

/-- Leftmost match: try every start position in order; a start position
matches when it carries three backticks whose tail completes the pattern;
the returned value is capture group one. -/
def findFence : List Char → Option (List Char)
  | [] => none
  | c :: t =>
    if c = backtick ∧ t.take 2 = [backtick, backtick] then
      match matchFenceTail (t.drop 2) with
      | some cap => some cap
      | none => findFence t
    else findFence t

/-- extractJsonCandidate from src/electron/processing/responseParsers.ts:
the trimmed capture when a fenced block with non-empty capture exists, else
the whole text trimmed. -/
def extractJsonCandidate (responseText : String) : String :=
  match findFence responseText.data with
  | some cap => if cap.isEmpty then jsTrim responseText else String.mk (jsTrimL cap)
  | none => jsTrim responseText

/-! ## A JSON.parse model producing JSValue

Numbers are exact rationals (float rounding and infinities are outside the
model); an escaped surrogate half outside a valid pair is modelled as the
replacement character U+FFFD since Lean strings hold unicode scalars; an
object with a duplicated key keeps both bindings in order, and property
lookup takes the last, as a JavaScript object does. -/

/-- JSON insignificant whitespace. -/
def jsonWsChar (c : Char) : Bool := c = ' ' || c = '\t' || c = '\n' || c = '\r'

/-- Drop leading JSON whitespace. -/
def skipJsonWs (l : List Char) : List Char := l.dropWhile jsonWsChar

/-- One hexadecimal digit value. -/
def hexVal (c : Char) : Option Nat :=
  if '0' ≤ c ∧ c ≤ '9' then some (c.toNat - 48)
  else if 'a' ≤ c ∧ c ≤ 'f' then some (c.toNat - 87)
  else if 'A' ≤ c ∧ c ≤ 'F' then some (c.toNat - 55)
  else none

/-- Four hexadecimal digits of a unicode escape. -/
def parseHex4 : List Char → Option (Nat × List Char)
  | a :: b :: c :: d :: rest =>
    match hexVal a, hexVal b, hexVal c, hexVal d with
    | some x, some y, some z, some w => some (((x * 16 + y) * 16 + z) * 16 + w, rest)
    | _, _, _, _ => none
  | _ => none

/-- The replacement character standing in for a lone surrogate half. -/
def replacementChar : Char := Char.ofNat 0xFFFD

/-- Body of a JSON string after its opening quote: characters up to the
closing quote, with escape sequences decoded; rejects unescaped control
characters and invalid escapes. -/
def parseJsonStrBody (fuel : Nat) (l : List Char) : Option (List Char × List Char) :=
  match fuel with
  | 0 => none
  | fuel + 1 =>
    match l with
    | [] => none
    | c :: t =>
      if c = '"' then some ([], t)
      else if c = '\\' then
        match t with
        | [] => none
        | e :: t2 =>
          if e = 'u' then
            match parseHex4 t2 with
            | none => none
            | some (x, t3) =>
              if 0xD800 ≤ x ∧ x ≤ 0xDBFF then
                match t3 with
                | c4 :: c5 :: t4 =>
                  if c4 = '\\' ∧ c5 = 'u' then
                    match parseHex4 t4 with
                    | some (y, t5) =>
                      if 0xDC00 ≤ y ∧ y ≤ 0xDFFF then
                        (parseJsonStrBody fuel t5).map (fun (cs, r) =>
                          (Char.ofNat (0x10000 + (x - 0xD800) * 0x400 + (y - 0xDC00)) :: cs, r))
                      else
                        (parseJsonStrBody fuel t3).map (fun (cs, r) =>
                          (replacementChar :: cs, r))
                    | none =>
                      (parseJsonStrBody fuel t3).map (fun (cs, r) =>
                        (replacementChar :: cs, r))
                  else
                    (parseJsonStrBody fuel t3).map (fun (cs, r) =>
                      (replacementChar :: cs, r))
                | _ =>
                  (parseJsonStrBody fuel t3).map (fun (cs, r) =>
                    (replacementChar :: cs, r))
              else if 0xDC00 ≤ x ∧ x ≤ 0xDFFF then
                (parseJsonStrBody fuel t3).map (fun (cs, r) => (replacementChar :: cs, r))
              else
                (parseJsonStrBody fuel t3).map (fun (cs, r) => (Char.ofNat x :: cs, r))
          else
            match
              (if e = '"' then some '"'
               else if e = '\\' then some '\\'
               else if e = '/' then some '/'
               else if e = 'b' then some (Char.ofNat 8)
               else if e = 'f' then some (Char.ofNat 12)
               else if e = 'n' then some '\n'
               else if e = 'r' then some '\r'
               else if e = 't' then some '\t'
               else none) with
            | some d => (parseJsonStrBody fuel t2).map (fun (cs, r) => (d :: cs, r))
            | none => none
      else if c.toNat < 0x20 then none
      else (parseJsonStrBody fuel t).map (fun (cs, r) => (c :: cs, r))

/-- Maximal digit run and the remainder. -/
def parseDigitRun (l : List Char) : List Char × List Char :=
  (l.takeWhile isDigitChar, l.drop (l.takeWhile isDigitChar).length)

/-- Value of a digit run. -/
def digitsToNat (ds : List Char) : Nat :=
  ds.foldl (fun acc c => acc * 10 + (c.toNat - 48)) 0

/-- Ten to an integer power, as an exact rational. -/
def pow10 (k : Int) : Rat :=
  if 0 ≤ k then ((10 ^ k.toNat : Nat) : Rat) else 1 / ((10 ^ (-k).toNat : Nat) : Rat)

/-- Optional fraction part of a JSON number. -/
def parseJsonFrac : List Char → Option (List Char × List Char)
  | c :: t =>
    if c = '.' then
      let (ds, r) := parseDigitRun t
      if ds.isEmpty then none else some (ds, r)
    else some ([], c :: t)
  | [] => some ([], [])

/-- Optional exponent part of a JSON number. -/
def parseJsonExp : List Char → Option (Int × List Char)
  | [] => some (0, [])
  | c :: t =>
    if c = 'e' ∨ c = 'E' then
      match t with
      | [] => none
      | s :: t2 =>
        if s = '+' then
          let (ds, r) := parseDigitRun t2
          if ds.isEmpty then none else some ((digitsToNat ds : Int), r)
        else if s = '-' then
          let (ds, r) := parseDigitRun t2
          if ds.isEmpty then none else some (-(digitsToNat ds : Int), r)
        else
          let (ds, r) := parseDigitRun (s :: t2)
          if ds.isEmpty then none else some ((digitsToNat ds : Int), r)
    else some (0, c :: t)

/-- A JSON number: optional minus, integer part without a leading zero,
optional fraction, optional exponent; exact rational value. -/
def parseJsonNumber (l : List Char) : Option (Rat × List Char) :=
  let signSplit : Bool × List Char :=
    match l with
    | c :: t => if c = '-' then (true, t) else (false, c :: t)
    | [] => (false, [])
  let neg := signSplit.1
  let (ds, l2) := parseDigitRun signSplit.2
  if ds.isEmpty then none
  else if 1 < ds.length ∧ ds.head? = some '0' then none
  else
    match parseJsonFrac l2 with
    | none => none
    | some (fs, l3) =>
      match parseJsonExp l3 with
      | none => none
      | some (e, l4) =>
        let mant : Int := (digitsToNat ds * 10 ^ fs.length + digitsToNat fs : Nat)
        let q : Rat := (mant : Rat) * pow10 (e - (fs.length : Int))
        some (if neg then -q else q, l4)

mutual

/-- A JSON value at the head of the list (no leading whitespace). -/
def parseJsonValue : Nat → List Char → Option (JSValue × List Char)
  | 0, _ => none
  | fuel + 1, l =>
    match l with
    | [] => none
    | c :: t =>
      if c = '{' then
        match skipJsonWs t with
        | d :: r =>
          if d = '}' then some (.vObj [], r)
          else
            (parseJsonMembers fuel (d :: r)).map (fun (fs, r2) => (.vObj fs, r2))
        | [] => none
      else if c = '[' then
        match skipJsonWs t with
        | d :: r =>
          if d = ']' then some (.vArr [], r)
          else
            (parseJsonElems fuel (d :: r)).map (fun (xs, r2) => (.vArr xs, r2))
        | [] => none
      else if c = '"' then
        (parseJsonStrBody (t.length + 1) t).map (fun (cs, r) => (.vStr (String.mk cs), r))
      else if (c :: t).take 4 = ("true").data then some (.vBool true, (c :: t).drop 4)
      else if (c :: t).take 5 = ("false").data then some (.vBool false, (c :: t).drop 5)
      else if (c :: t).take 4 = ("null").data then some (.vNull, (c :: t).drop 4)
      else (parseJsonNumber (c :: t)).map (fun (q, r) => (.vNum q, r))

/-- One or more object members, positioned at a key after whitespace. -/
def parseJsonMembers : Nat → List Char → Option (List (String × JSValue) × List Char)
  | 0, _ => none
  | fuel + 1, l =>
    match l with
    | c :: t =>
      if c = '"' then
        match parseJsonStrBody (t.length + 1) t with
        | none => none
        | some (key, r1) =>
          match skipJsonWs r1 with
          | d :: r2 =>
            if d = ':' then
              match parseJsonValue fuel (skipJsonWs r2) with
              | none => none
              | some (v, r3) =>
                match skipJsonWs r3 with
                | e :: r4 =>
                  if e = ',' then
                    (parseJsonMembers fuel (skipJsonWs r4)).map
                      (fun (fs, r5) => ((String.mk key, v) :: fs, r5))
                  else if e = '}' then some ([(String.mk key, v)], r4)
                  else none
                | [] => none
            else none
          | [] => none
      else none
    | [] => none

/-- One or more array elements, positioned at a value after whitespace. -/
def parseJsonElems : Nat → List Char → Option (List JSValue × List Char)
  | 0, _ => none
  | fuel + 1, l =>
    match parseJsonValue fuel l with
    | none => none
    | some (v, r1) =>
      match skipJsonWs r1 with
      | e :: r2 =>
        if e = ',' then
          (parseJsonElems fuel (skipJsonWs r2)).map (fun (xs, r3) => (v :: xs, r3))
        else if e = ']' then some ([v], r2)
        else none
      | [] => none

end

/-- The JSON.parse model: whitespace, one value, whitespace, end of input.
The fuel bound exceeds any possible recursion depth for the input. -/
def jsonParse (s : String) : Option JSValue :=
  let l := skipJsonWs s.data
  match parseJsonValue (2 * l.length + 2) l with
  | some (v, r) => if (skipJsonWs r).isEmpty then some v else none
  | none => none

/-- The isPlainObject guard of src/electron/processing/responseParsers.ts:
an object that is neither null nor an array. -/
def isPlainObject : JSValue → Bool
  | .vObj _ => true
  | _ => false

/-- parseProblemInfoResponse from src/electron/processing/responseParsers.ts:
the try/catch around JSON.parse is the option flow of the model. -/
def parseProblemInfoResponse (responseText : String) : Option JSValue :=
  match jsonParse (extractJsonCandidate responseText) with
  | some parsed => if isPlainObject parsed then some parsed else none
  | none => none

/-- Whether a parse result is absent or a plain object. -/
def parsedIsObjOrNone : Option JSValue → Bool
  | none => true
  | some v => isPlainObject v

/-! ## src/electron/processing/responseParsers.ts: heading normalization -/

/-- First replace pass of normalizeDebugContent: its alternation phrases. -/
def headingSynonyms1 : List String := ["issues identified", "problems found", "bugs found"]

/-- Second replace pass of normalizeDebugContent: its alternation phrases. -/
def headingSynonyms2 : List String := ["code improvements", "improvements", "suggested changes"]

/-- Third replace pass of normalizeDebugContent: its alternation phrases. -/
def headingSynonyms3 : List String := ["optimizations", "performance improvements"]

/-- Fourth replace pass of normalizeDebugContent: its alternation phrases. -/
def headingSynonyms4 : List String := ["explanation", "detailed analysis"]

/-- Whether one line matches the anchored case-insensitive pattern
caret [ ]* (alternation of the phrases) [ ]* dollar. -/
def lineMatchesSynonym (syns : List String) (line : List Char) : Bool :=
  syns.any fun syn => (trimSpacesL line).map lowerAscii = syn.data

/-- Action of one replace pass on a single line. -/
def replaceLineFn (syns : List String) (repl : String) (line : List Char) : List Char :=
  if lineMatchesSynonym syns line then repl.data else line

/-- One global multiline anchored replace pass: since the pattern is
anchored at both line ends and contains no line terminator, it acts on the
content of each line, leaving every terminator in place. -/
def replaceLines (syns : List String) (repl : String) (s : String) : String :=
  String.mk (joinLines ((splitLines s.data).map
    (fun seg => (replaceLineFn syns repl seg.1, seg.2))))

/-- normalizeDebugContent from src/electron/processing/responseParsers.ts:
if the text contains the substring hash-space or hash-hash-space anywhere it
is returned unchanged, else the four replace passes run in source order. -/
def normalizeDebugContent (debugContent : String) : String :=
  if containsSub debugContent "# " || containsSub debugContent "## " then debugContent
  else
    replaceLines headingSynonyms4 "## Explanation"
      (replaceLines headingSynonyms3 "## Optimizations"
        (replaceLines headingSynonyms2 "## Code Improvements"
          (replaceLines headingSynonyms1 "## Issues Identified" debugContent)))

/-! ## src/electron/processing/responseParsers.ts: thought extraction

The global pattern is (caret or newline) [ ]* (dash, star, bullet dot, or
digits followed by a period) [ ]+ ([^newline]+). Matching is modelled by a
deterministic scan equivalent to the backtracking search: the spaces before
the marker never backtrack (a marker character is not a space), and the only
productive backtrack after the marker hands the last of two or more spaces
to the content group. -/

/-- Bullet marker characters of the thought-extraction pattern. -/
def isBulletMarker (c : Char) : Bool := c = '-' || c = '*' || c = '•'

/-- Match the marker alternative (single bullet char, or digits then a
period) at the head of the list; returns consumed marker and remainder. -/
def matchMarker (l : List Char) : Option (List Char × List Char) :=
  match l with
  | [] => none
  | c :: t =>
    if isBulletMarker c then some ([c], t)
    else
      let ds := (c :: t).takeWhile isDigitChar
      if ds.isEmpty then none
      else
        match (c :: t).drop ds.length with
        | '.' :: t2 => some (ds ++ ['.'], t2)
        | _ => none

/-- Match the bullet body (everything after the start anchor): leading
spaces, a marker, at least one space, then at least one non-newline
character. Returns the consumed characters and the remainder. -/
def matchBulletBody (l : List Char) : Option (List Char × List Char) :=
  let lead := l.takeWhile (· = ' ')
  match matchMarker (l.drop lead.length) with
  | none => none
  | some (marker, r2) =>
    let sps := r2.takeWhile (· = ' ')
    if sps.isEmpty then none
    else
      let r3 := r2.drop sps.length
      let content := r3.takeWhile (· ≠ '\n')
      if content.isEmpty then
        if 2 ≤ sps.length then some (lead ++ marker ++ sps, r3) else none
      else some (lead ++ marker ++ sps ++ content, r3.drop content.length)

/-- Scan for further matches, each of which must start at a newline
character (the caret alternative only applies at position zero). Fuel is at
least the list length plus one, and every step consumes at least one
character, so the fuel never runs out. -/
def scanBulletsFrom (fuel : Nat) (l : List Char) : List (List Char) :=
  match fuel with
  | 0 => []
  | fuel + 1 =>
    match l with
    | [] => []
    | c :: t =>
      if c = '\n' then
        match matchBulletBody t with
        | some (m, rest) => ('\n' :: m) :: scanBulletsFrom fuel rest
        | none => scanBulletsFrom fuel t
      else scanBulletsFrom fuel t

/-- All matches of the global bullet pattern, in order, as the JavaScript
match method returns them (each including its consumed leading newline). -/
def bulletMatches (s : String) : List (List Char) :=
  match matchBulletBody s.data with
  | some (m, rest) => m :: scanBulletsFrom (s.data.length + 1) rest
  | none => scanBulletsFrom (s.data.length + 1) s.data

/-- The per-entry replace of extractThoughts: strip an anchored prefix of
spaces, a marker and at least one space; anchored strictly at the start, so
a match string that begins with a newline is returned unchanged. -/
def stripBulletPrefix (m : List Char) : List Char :=
  match matchMarker (m.drop (m.takeWhile (· = ' ')).length) with
  | some (_, r2) =>
    let sps := r2.takeWhile (· = ' ')
    if sps.isEmpty then m else r2.drop sps.length
  | none => m

/-- extractThoughts from src/electron/processing/responseParsers.ts. -/
def extractThoughts (content : String) : List String :=
  let bulletPoints := bulletMatches content
  if bulletPoints.isEmpty then ["Debug analysis based on your screenshots"]
  else (bulletPoints.map fun m => String.mk (jsTrimL (stripBulletPrefix m))).take 5

/-- The DebugResponsePayload interface of src/electron/processing/types.ts. -/
structure DebugResponsePayload where
  code : String
  debug_analysis : String
  thoughts : List String
  time_complexity : String
  space_complexity : String
deriving DecidableEq

/-- buildDebugResponse from src/electron/processing/responseParsers.ts. -/
def buildDebugResponse (extractedCode : String) (debugContent : String) :
    DebugResponsePayload :=
  let formattedDebugContent := normalizeDebugContent debugContent
  let thoughts := extractThoughts formattedDebugContent
  { code := extractedCode
    debug_analysis := formattedDebugContent
    thoughts := thoughts
    time_complexity := "N/A - Debug mode"
    space_complexity := "N/A - Debug mode" }

/-! ## src/electron/processing/promptBuilders.ts: OpenAI model resolution -/

/-- resolveOpenAIModel from src/electron/processing/promptBuilders.ts.
Absent optional string parameters and present-but-empty ones are both falsy
to the source, so each is normalized through getD of the empty string. -/
def resolveOpenAIModel (selectedModel openaiCustomModel openaiBaseUrl : Option String) :
    String :=
  let custom := (openaiCustomModel.map jsTrim).getD ""
  if custom ≠ "" then custom
  else
    let selected :=
      match selectedModel with
      | some s => if s ≠ "" then s else "gpt-4o"
      | none => "gpt-4o"
    if (openaiBaseUrl.map jsTrim).getD "" ≠ "" ∧
        (selected = "gpt-4o" ∨ selected = "gpt-4o-mini") then "gpt-5.3-codex"
    else selected

/-- shouldSendOpenAITemperature from src/electron/processing/promptBuilders.ts. -/
def shouldSendOpenAITemperature (openaiBaseUrl : Option String) : Bool :=
  decide ((openaiBaseUrl.map jsTrim).getD "" = "")

/-- The defaulting the source applies to the selected model: the logical-or
with the literal "gpt-4o" replaces an absent or empty selection. -/
def defaultedSelection (selectedModel : Option String) : String :=
  match selectedModel with
  | some s => if s ≠ "" then s else "gpt-4o"
  | none => "gpt-4o"

/-! ## Theorems for claim C2 -/

/-- Counterexample to claim C2 as stated: a configured non-blank custom
model override carrying surrounding whitespace is not returned verbatim;
the source returns its trimmed form. -/
theorem resolveOpenAIModel_claim_counterexample :
    jsTrim " my-model " ≠ "" ∧
    resolveOpenAIModel (some "gpt-4o") (some " my-model ") none ≠ " my-model " ∧
    resolveOpenAIModel (some "gpt-4o") (some " my-model ") none = "my-model" :=
  ⟨by decide, by decide, by decide⟩

/-- Claim C2 as amended: when the custom model override trims to a
non-empty string the result is that trimmed override; otherwise, with the
selection defaulted to "gpt-4o" when absent or empty, a non-blank base URL
together with a legacy default selection yields the fixed newer model id,
and in every other case the defaulted selection is returned. -/
theorem resolveOpenAIModel_amended
    (selectedModel openaiCustomModel openaiBaseUrl : Option String) :
    ((openaiCustomModel.map jsTrim).getD "" ≠ "" →
      resolveOpenAIModel selectedModel openaiCustomModel openaiBaseUrl =
        (openaiCustomModel.map jsTrim).getD "") ∧
    ((openaiCustomModel.map jsTrim).getD "" = "" →
      (openaiBaseUrl.map jsTrim).getD "" ≠ "" →
      (defaultedSelection selectedModel = "gpt-4o" ∨
        defaultedSelection selectedModel = "gpt-4o-mini") →
      resolveOpenAIModel selectedModel openaiCustomModel openaiBaseUrl =
        "gpt-5.3-codex") ∧
    ((openaiCustomModel.map jsTrim).getD "" = "" →
      ¬ ((openaiBaseUrl.map jsTrim).getD "" ≠ "" ∧
          (defaultedSelection selectedModel = "gpt-4o" ∨
            defaultedSelection selectedModel = "gpt-4o-mini")) →
      resolveOpenAIModel selectedModel openaiCustomModel openaiBaseUrl =
        defaultedSelection selectedModel) := by
  have hshape : resolveOpenAIModel selectedModel openaiCustomModel openaiBaseUrl =
      (if (openaiCustomModel.map jsTrim).getD "" ≠ ""
        then (openaiCustomModel.map jsTrim).getD ""
        else if (openaiBaseUrl.map jsTrim).getD "" ≠ "" ∧
            (defaultedSelection selectedModel = "gpt-4o" ∨
              defaultedSelection selectedModel = "gpt-4o-mini")
          then "gpt-5.3-codex" else defaultedSelection selectedModel) := rfl
  refine ⟨fun hc => ?_, fun hc hb hl => ?_, fun hc hn => ?_⟩
  · rw [hshape, if_pos hc]
  · rw [hshape, if_neg (fun h => h hc), if_pos ⟨hb, hl⟩]
  · rw [hshape, if_neg (fun h => h hc), if_neg hn]

/-- Witness for claim C2 at concrete inputs: an override wins, and the base
URL substitution fires on a legacy selection without an override. -/
theorem resolveOpenAIModel_amended_witness :
    resolveOpenAIModel (some "gpt-4o") (some "custom-model") none = "custom-model" ∧
    resolveOpenAIModel (some "gpt-4o") none (some "http://localhost:1234/v1") =
      "gpt-5.3-codex" :=
  ⟨(resolveOpenAIModel_amended (some "gpt-4o") (some "custom-model") none).1
      (by decide),
    (resolveOpenAIModel_amended (some "gpt-4o") none
        (some "http://localhost:1234/v1")).2.1 (by decide) (by decide) (by decide)⟩

/-! ## Lemmas about line splitting and the heading rewrite passes -/

/-- Well-formed segment lists: the lists splitLines can produce. Every
content is terminator-free, every segment but the last carries a line
terminator, and the last carries none. -/
def SegsOK : List (List Char × Option Char) → Prop
  | [] => False
  | [seg] => seg.2 = none ∧ TermFree seg.1
  | seg :: rest => (∃ c, seg.2 = some c ∧ isLineTerm c = true) ∧ TermFree seg.1 ∧ SegsOK rest

/-- The empty list is terminator-free. -/
theorem termFree_nil : TermFree [] := by
  intro c hc
  cases hc

/-- Extending a terminator-free list with a non-terminator character. -/
theorem termFree_cons {c : Char} {p : List Char} (hc : isLineTerm c = false)
    (hp : TermFree p) : TermFree (c :: p) := by
  intro d hd
  rcases List.mem_cons.mp hd with rfl | hd
  · exact hc
  · exact hp d hd

/-- splitLines always produces a well-formed segment list. -/
theorem segsOK_splitLines (l : List Char) : SegsOK (splitLines l) := by
  induction l with
  | nil => exact ⟨rfl, termFree_nil⟩
  | cons c t ih =>
    by_cases hc : isLineTerm c = true
    · rw [show splitLines (c :: t) = ([], some c) :: splitLines t from by
        simp [splitLines, hc]]
      cases hs : splitLines t with
      | nil => rw [hs] at ih; exact ih.elim
      | cons seg rest =>
        rw [hs] at ih
        exact ⟨⟨c, rfl, hc⟩, termFree_nil, ih⟩
    · have hc2 : isLineTerm c = false := Bool.eq_false_iff.mpr hc
      cases hs : splitLines t with
      | nil => rw [hs] at ih; exact ih.elim
      | cons seg rest =>
        rw [show splitLines (c :: t) = ((c :: seg.1), seg.2) :: rest from by
          simp [splitLines, hc2, hs]]
        rw [hs] at ih
        cases rest with
        | nil =>
          obtain ⟨ht, hfree⟩ := ih
          exact ⟨ht, termFree_cons hc2 hfree⟩
        | cons r rest2 =>
          obtain ⟨hex, hfree, hrest⟩ := ih
          exact ⟨hex, termFree_cons hc2 hfree, hrest⟩

/-- A terminator-free list splits into the single unterminated line it is. -/
theorem splitLines_of_termFree (p : List Char) (hp : TermFree p) :
    splitLines p = [(p, none)] := by
  induction p with
  | nil => rfl
  | cons c t ih =>
    have hc : isLineTerm c = false := hp c (List.mem_cons_self _ _)
    have ht : TermFree t := fun d hd => hp d (List.mem_cons_of_mem c hd)
    rw [show splitLines (c :: t) =
        (match splitLines t with
          | seg :: rest => ((c :: seg.1), seg.2) :: rest
          | [] => [([c], none)]) from by simp [splitLines, hc]]
    rw [ih ht]

/-- Splitting peels a leading terminator-free line, with its terminator,
off an explicit join. -/
theorem splitLines_append (p x : List Char) (c : Char) (hp : TermFree p)
    (hc : isLineTerm c = true) :
    splitLines (p ++ c :: x) = (p, some c) :: splitLines x := by
  induction p with
  | nil => simp [splitLines, hc]
  | cons a t ih =>
    have ha : isLineTerm a = false := hp a (List.mem_cons_self _ _)
    have ht : TermFree t := fun d hd => hp d (List.mem_cons_of_mem a hd)
    simp only [List.cons_append]
    rw [show splitLines (a :: (t ++ c :: x)) =
        (match splitLines (t ++ c :: x) with
          | seg :: rest => ((a :: seg.1), seg.2) :: rest
          | [] => [([a], none)]) from by simp [splitLines, ha]]
    rw [ih ht]

/-- splitLines is a left inverse of joinLines on well-formed segment
lists. -/
theorem splitLines_joinLines :
    ∀ segs : List (List Char × Option Char), SegsOK segs →
      splitLines (joinLines segs) = segs
  | [], h => h.elim
  | [(p, term)], h => by
    obtain ⟨ht, hfree⟩ := h
    have ht2 : term = none := ht
    subst ht2
    rw [show joinLines [(p, none)] = p ++ [] from rfl, List.append_nil]
    exact splitLines_of_termFree p hfree
  | (p, term) :: q :: rest, h => by
    obtain ⟨⟨c, hterm, hc⟩, hfree, hrest⟩ := h
    have hterm2 : term = some c := hterm
    subst hterm2
    rw [show joinLines ((p, some c) :: q :: rest) = p ++ c :: joinLines (q :: rest)
      from rfl]
    rw [splitLines_append p _ c hfree hc]
    rw [splitLines_joinLines (q :: rest) hrest]

/-- A content rewrite that keeps terminator-free contents terminator-free
preserves well-formedness of a segment list. -/
theorem segsOK_map :
    ∀ segs : List (List Char × Option Char), SegsOK segs →
      ∀ f : List Char → List Char, (∀ q, TermFree q → TermFree (f q)) →
      SegsOK (segs.map (fun seg => (f seg.1, seg.2)))
  | [], h, _, _ => h.elim
  | [(p, term)], h, f, hf => by
    obtain ⟨ht, hfree⟩ := h
    have ht2 : term = none := ht
    subst ht2
    exact ⟨rfl, hf p hfree⟩
  | (p, term) :: q :: rest, h, f, hf => by
    obtain ⟨⟨c, hterm, hc⟩, hfree, hrest⟩ := h
    have hterm2 : term = some c := hterm
    subst hterm2
    exact ⟨⟨c, rfl, hc⟩, hf p hfree, segsOK_map (q :: rest) hrest f hf⟩

/-- A replace pass applied to an explicit join of well-formed segments acts
on each line content, terminators untouched. -/
theorem replaceLines_mk (segs : List (List Char × Option Char)) (hOK : SegsOK segs)
    (syns : List String) (repl : String) :
    replaceLines syns repl (String.mk (joinLines segs)) =
      String.mk (joinLines (segs.map
        (fun seg => (replaceLineFn syns repl seg.1, seg.2)))) := by
  unfold replaceLines
  rw [show (String.mk (joinLines segs)).data = joinLines segs from rfl]
  rw [splitLines_joinLines segs hOK]

/-- A replace pass keeps a terminator-free line terminator-free, provided
the replacement text is terminator-free. -/
theorem replaceLineFn_termFree {p : List Char} (hp : TermFree p) {syns : List String}
    {repl : String} (hr : TermFree repl.data) : TermFree (replaceLineFn syns repl p) := by
  unfold replaceLineFn
  split <;> assumption

/-- The single linewise rewrite the specification describes: the first
matching synonym group, if any, replaces the line by its canonical heading. -/
def rewriteSectionLine (line : List Char) : List Char :=
  if lineMatchesSynonym headingSynonyms1 line then ("## Issues Identified").data
  else if lineMatchesSynonym headingSynonyms2 line then ("## Code Improvements").data
  else if lineMatchesSynonym headingSynonyms3 line then ("## Optimizations").data
  else if lineMatchesSynonym headingSynonyms4 line then ("## Explanation").data
  else line

/-- The linewise synonym-to-heading rewrite over a whole text, line
terminators untouched. -/
def rewriteSectionSynonyms (s : String) : String :=
  String.mk (joinLines ((splitLines s.data).map
    (fun seg => (rewriteSectionLine seg.1, seg.2))))

/-- The four chained replace passes agree with the single linewise rewrite
on each line: a replaced line is never matched again by a later group. -/
theorem composite_line (line : List Char) :
    replaceLineFn headingSynonyms4 "## Explanation"
      (replaceLineFn headingSynonyms3 "## Optimizations"
        (replaceLineFn headingSynonyms2 "## Code Improvements"
          (replaceLineFn headingSynonyms1 "## Issues Identified" line))) =
    rewriteSectionLine line := by
  have e21 : lineMatchesSynonym headingSynonyms2 ("## Issues Identified").data = false := by decide
  have e31 : lineMatchesSynonym headingSynonyms3 ("## Issues Identified").data = false := by decide
  have e41 : lineMatchesSynonym headingSynonyms4 ("## Issues Identified").data = false := by decide
  have e32 : lineMatchesSynonym headingSynonyms3 ("## Code Improvements").data = false := by decide
  have e42 : lineMatchesSynonym headingSynonyms4 ("## Code Improvements").data = false := by decide
  have e43 : lineMatchesSynonym headingSynonyms4 ("## Optimizations").data = false := by decide
  unfold replaceLineFn rewriteSectionLine
  by_cases h1 : lineMatchesSynonym headingSynonyms1 line = true
  · simp [h1, e21, e31, e41]
  · by_cases h2 : lineMatchesSynonym headingSynonyms2 line = true
    · simp [h1, h2, e32, e42]
    · by_cases h3 : lineMatchesSynonym headingSynonyms3 line = true
      · simp [h1, h2, h3, e43]
      · by_cases h4 : lineMatchesSynonym headingSynonyms4 line = true
        · simp [h1, h2, h3, h4]
        · simp [h1, h2, h3, h4]

/-- The linewise rewrite is idempotent on each line: no canonical heading
matches any synonym group. -/
theorem rewriteSectionLine_idem (line : List Char) :
    rewriteSectionLine (rewriteSectionLine line) = rewriteSectionLine line := by
  have r1 : rewriteSectionLine ("## Issues Identified").data = ("## Issues Identified").data := by decide
  have r2 : rewriteSectionLine ("## Code Improvements").data = ("## Code Improvements").data := by decide
  have r3 : rewriteSectionLine ("## Optimizations").data = ("## Optimizations").data := by decide
  have r4 : rewriteSectionLine ("## Explanation").data = ("## Explanation").data := by decide
  by_cases h1 : lineMatchesSynonym headingSynonyms1 line = true
  · rw [show rewriteSectionLine line = ("## Issues Identified").data from by
      unfold rewriteSectionLine; simp [h1]]
    exact r1
  · by_cases h2 : lineMatchesSynonym headingSynonyms2 line = true
    · rw [show rewriteSectionLine line = ("## Code Improvements").data from by
        unfold rewriteSectionLine; simp [h1, h2]]
      exact r2
    · by_cases h3 : lineMatchesSynonym headingSynonyms3 line = true
      · rw [show rewriteSectionLine line = ("## Optimizations").data from by
          unfold rewriteSectionLine; simp [h1, h2, h3]]
        exact r3
      · by_cases h4 : lineMatchesSynonym headingSynonyms4 line = true
        · rw [show rewriteSectionLine line = ("## Explanation").data from by
            unfold rewriteSectionLine; simp [h1, h2, h3, h4]]
          exact r4
        · have hid : rewriteSectionLine line = line := by
            unfold rewriteSectionLine; simp [h1, h2, h3, h4]
          rw [hid, hid]

/-- The linewise rewrite keeps newline-free lines newline-free. -/
theorem rewriteSectionLine_termFree {line : List Char} (h : TermFree line) :
    TermFree (rewriteSectionLine line) := by
  unfold rewriteSectionLine
  split_ifs <;> first | decide | exact h

set_option maxHeartbeats 1000000 in
/-- normalizeDebugContent equals: return unchanged when the text contains
the substring hash-space or hash-hash-space anywhere, else apply the single
linewise synonym rewrite. Shared helper behind claims C6 and C10. -/
theorem normalizeDebugContent_eq (s : String) :
    normalizeDebugContent s =
      if containsSub s "# " || containsSub s "## " then s
      else rewriteSectionSynonyms s := by
  by_cases hg : (containsSub s "# " || containsSub s "## ") = true
  · simp [normalizeDebugContent, hg]
  · have hOK0 : SegsOK (splitLines s.data) := segsOK_splitLines _
    have hstep : ∀ (syns : List String) (repl : String), TermFree repl.data →
        ∀ q, TermFree q → TermFree (replaceLineFn syns repl q) :=
      fun syns repl hr q hq => replaceLineFn_termFree hq hr
    have hOK1 : SegsOK ((splitLines s.data).map
        (fun seg => (replaceLineFn headingSynonyms1 "## Issues Identified" seg.1, seg.2))) :=
      segsOK_map _ hOK0 _ (hstep _ _ (by decide))
    have hOK2 : SegsOK (((splitLines s.data).map
        (fun seg => (replaceLineFn headingSynonyms1 "## Issues Identified" seg.1, seg.2))).map
        (fun seg => (replaceLineFn headingSynonyms2 "## Code Improvements" seg.1, seg.2))) :=
      segsOK_map _ hOK1 _ (hstep _ _ (by decide))
    have hOK3 : SegsOK ((((splitLines s.data).map
        (fun seg => (replaceLineFn headingSynonyms1 "## Issues Identified" seg.1, seg.2))).map
        (fun seg => (replaceLineFn headingSynonyms2 "## Code Improvements" seg.1, seg.2))).map
        (fun seg => (replaceLineFn headingSynonyms3 "## Optimizations" seg.1, seg.2))) :=
      segsOK_map _ hOK2 _ (hstep _ _ (by decide))
    have h1 : replaceLines headingSynonyms1 "## Issues Identified" s =
        String.mk (joinLines ((splitLines s.data).map
          (fun seg => (replaceLineFn headingSynonyms1 "## Issues Identified" seg.1, seg.2)))) := rfl
    simp only [normalizeDebugContent, hg, if_false, Bool.false_eq_true]
    rw [h1]
    rw [replaceLines_mk _ hOK1 _ _]
    rw [replaceLines_mk _ hOK2 _ _]
    rw [replaceLines_mk _ hOK3 _ _]
    have hmaps : (((((splitLines s.data).map
          (fun seg => (replaceLineFn headingSynonyms1 "## Issues Identified" seg.1, seg.2))).map
          (fun seg => (replaceLineFn headingSynonyms2 "## Code Improvements" seg.1, seg.2))).map
          (fun seg => (replaceLineFn headingSynonyms3 "## Optimizations" seg.1, seg.2))).map
          (fun seg => (replaceLineFn headingSynonyms4 "## Explanation" seg.1, seg.2))) =
        (splitLines s.data).map (fun seg => (rewriteSectionLine seg.1, seg.2)) := by
      rw [List.map_map, List.map_map, List.map_map]
      refine List.map_congr_left ?_
      rintro ⟨p, term⟩ _
      simp only [Function.comp]
      exact congrArg (fun q => (q, term)) (composite_line p)
    rw [hmaps]
    rfl

/-! ## src/electron/processing/promptBuilders.ts: prompt construction -/

/-- The PromptBundle interface of src/electron/processing/types.ts. -/
structure PromptBundle where
  systemPrompt : String
  userPrompt : String
deriving DecidableEq

/-- The ProcessingProblemInfo interface of src/electron/processing/types.ts;
only the four named optional fields are read by the embedded functions (its
open index signature carries no field any embedded function reads). -/
structure ProcessingProblemInfo where
  problem_statement : Option String
  constraints : Option String
  example_input : Option String
  example_output : Option String

/-- The logical-or-with-fallback idiom: an absent or empty string field is
replaced by the fallback text. -/
def orFallback : Option String → String → String
  | some s, fallback => if s ≠ "" then s else fallback
  | none, fallback => fallback

/-- The baseSystemPrompt constant of buildExtractionPrompt. -/
def baseSystemPrompt : String :=
  "You are a coding challenge interpreter. Analyze the screenshot of the coding problem and extract all relevant information. Return the information in JSON format with these fields: problem_statement, constraints, example_input, example_output. Just return the structured JSON without any other text."

/-- The baseUserPrompt constant of buildExtractionPrompt. -/
def baseUserPrompt : String :=
  "Extract the coding problem details from these screenshots. Return in JSON format."

/-- buildExtractionPrompt from src/electron/processing/promptBuilders.ts. -/
def buildExtractionPrompt (language : String) (conversationContext : Option String) :
    PromptBundle :=
  let conversationSection :=
    match conversationContext with
    | some c =>
      if c ≠ "" then " Consider the following conversation context:\n\n" ++ c ++ "\n\n"
      else " "
    | none => " "
  let systemPrompt :=
    match conversationContext with
    | some c =>
      if c ≠ "" then
        replaceFirstStr baseSystemPrompt "Return the information"
          "Consider the conversation context provided. Return the information"
      else baseSystemPrompt
    | none => baseSystemPrompt
  { systemPrompt := systemPrompt
    userPrompt := baseUserPrompt ++ conversationSection ++
      "Preferred coding language we gonna use for this problem is " ++ language ++ "." }

/-- buildSolutionPrompt from src/electron/processing/promptBuilders.ts: the
template literal in source order with its four fallback fields. -/
def buildSolutionPrompt (problemInfo : ProcessingProblemInfo) (language : String) :
    String :=
  "\nGenerate a detailed solution for the following coding problem:\n\nPROBLEM STATEMENT:\n" ++
  orFallback problemInfo.problem_statement "No problem statement provided." ++
  "\n\nCONSTRAINTS:\n" ++
  orFallback problemInfo.constraints "No specific constraints provided." ++
  "\n\nEXAMPLE INPUT:\n" ++
  orFallback problemInfo.example_input "No example input provided." ++
  "\n\nEXAMPLE OUTPUT:\n" ++
  orFallback problemInfo.example_output "No example output provided." ++
  "\n\nLANGUAGE: " ++ language ++
  "\n\nI need the response in the following format:\n1. Code: A clean, optimized implementation in " ++
  language ++
  "\n2. Your Thoughts: A list of key insights and reasoning behind your approach\n3. Time complexity: O(X) with a detailed explanation (at least 2 sentences)\n4. Space complexity: O(X) with a detailed explanation (at least 2 sentences)\n\nFor complexity explanations, please be thorough. For example: \"Time complexity: O(n) because we iterate through the array only once. This is optimal as we need to examine each element at least once to find the solution.\" or \"Space complexity: O(n) because in the worst case, we store all elements in the hashmap. The additional space scales linearly with the input size.\"\n\nYour solution should be efficient, well-commented, and handle edge cases.\n"

/-! ## Occurrence lemmas for substring reasoning -/

/-- The executable prefix test agrees with the prefix order. -/
theorem prefixCheck_iff (p l : List Char) : p.isPrefixOf l = true ↔ p <+: l := by
  simp

/-- OccursIn on the empty list means the pattern is empty. -/
theorem occursIn_nil (p : List Char) : OccursIn p [] ↔ p = [] := by
  constructor
  · rintro ⟨s, t, h⟩
    have h2 := h.symm
    simp only [List.append_eq_nil] at h2
    exact h2.1.2
  · rintro rfl
    exact ⟨[], [], rfl⟩

/-- OccursIn peels one character: an occurrence is at the head or later. -/
theorem occursIn_cons (p : List Char) (c : Char) (t : List Char) :
    OccursIn p (c :: t) ↔ p <+: (c :: t) ∨ OccursIn p t := by
  constructor
  · rintro ⟨s, u, h⟩
    cases s with
    | nil =>
      left
      exact ⟨u, by simpa using h.symm⟩
    | cons a s2 =>
      right
      simp only [List.cons_append, List.append_assoc] at h
      injection h with h1 h2
      exact ⟨s2, u, by simpa [List.append_assoc] using h2⟩
  · rintro (⟨u, h⟩ | ⟨s, u, h⟩)
    · exact ⟨[], u, by simpa using h.symm⟩
    · exact ⟨c :: s, u, by simp [h, List.append_assoc]⟩

/-- The executable occurrence scan agrees with the occurrence proposition. -/
theorem listContains_iff (p l : List Char) : listContains p l = true ↔ OccursIn p l := by
  induction l with
  | nil => simp [listContains, occursIn_nil, List.isEmpty_iff]
  | cons c t ih =>
    simp [listContains, occursIn_cons, ih, prefixCheck_iff]

/-- An occurrence in the left part survives appending on the right. -/
theorem occursIn_append_left {p a : List Char} (h : OccursIn p a) (b : List Char) :
    OccursIn p (a ++ b) := by
  rcases h with ⟨s, t, rfl⟩
  exact ⟨s, t ++ b, by simp [List.append_assoc]⟩

/-- An occurrence in the right part survives appending on the left. -/
theorem occursIn_append_right (a : List Char) {p b : List Char} (h : OccursIn p b) :
    OccursIn p (a ++ b) := by
  rcases h with ⟨s, t, rfl⟩
  exact ⟨a ++ s, t, by simp [List.append_assoc]⟩

/-- Gluing two pattern-free segments with a separator character the pattern
does not contain keeps the result pattern-free: no occurrence can straddle
the separator (cons form). -/
theorem not_occursIn_glue {p a b : List Char} {c : Char} (hc : c ∉ p)
    (ha : ¬ OccursIn p a) (hb : ¬ OccursIn p b) : ¬ OccursIn p (a ++ c :: b) := by
  rintro ⟨s, t, h⟩
  rw [List.append_assoc] at h
  rcases List.append_eq_append_iff.mp h with ⟨a2, hs2, hcb⟩ | ⟨c2, ha2, hd⟩
  · cases a2 with
    | nil =>
      cases p with
      | nil => exact ha ⟨[], a, by simp⟩
      | cons p0 p2 =>
        simp only [List.nil_append, List.cons_append] at hcb
        injection hcb with h1 h2
        exact hc (by rw [h1]; exact List.mem_cons_self _ _)
    | cons c2 a3 =>
      simp only [List.cons_append] at hcb
      injection hcb with h1 h2
      exact hb ⟨a3, t, by simpa [List.append_assoc] using h2⟩
  · rcases List.append_eq_append_iff.mp hd with ⟨d2, hc2, ht⟩ | ⟨e2, hp, hcb⟩
    · exact ha ⟨s, d2, by simp [ha2, hc2, List.append_assoc]⟩
    · cases e2 with
      | nil =>
        simp only [List.append_nil] at hp
        exact ha ⟨s, [], by simp [ha2, hp]⟩
      | cons e0 e3 =>
        simp only [List.cons_append] at hcb
        injection hcb with h1 h2
        refine hc ?_
        rw [hp, ← h1]
        exact List.mem_append_right _ (List.mem_cons_self _ _)

/-- The glue lemma in singleton-append form. -/
theorem not_occursIn_glueS {p a b : List Char} {c : Char} (hc : c ∉ p)
    (ha : ¬ OccursIn p a) (hb : ¬ OccursIn p b) : ¬ OccursIn p (a ++ ([c] ++ b)) := by
  rw [List.singleton_append]
  exact not_occursIn_glue hc ha hb

/-! ## Decomposition of the all-defaults solution prompt -/

/-- Literal text of the solution prompt before the first language slot, the
fallback texts inlined, ending just before the separating space. -/
def solA : String :=
  "\nGenerate a detailed solution for the following coding problem:\n\nPROBLEM STATEMENT:\nNo problem statement provided.\n\nCONSTRAINTS:\nNo specific constraints provided.\n\nEXAMPLE INPUT:\nNo example input provided.\n\nEXAMPLE OUTPUT:\nNo example output provided.\n\nLANGUAGE:"

/-- Literal text between the two language slots, after the newline that
follows the first slot and before the space that precedes the second. -/
def solB : String :=
  "\nI need the response in the following format:\n1. Code: A clean, optimized implementation in"

/-- Literal text after the second language slot, from past its following
newline to the end of the template. -/
def solC : String :=
  "2. Your Thoughts: A list of key insights and reasoning behind your approach\n3. Time complexity: O(X) with a detailed explanation (at least 2 sentences)\n4. Space complexity: O(X) with a detailed explanation (at least 2 sentences)\n\nFor complexity explanations, please be thorough. For example: \"Time complexity: O(n) because we iterate through the array only once. This is optimal as we need to examine each element at least once to find the solution.\" or \"Space complexity: O(n) because in the worst case, we store all elements in the hashmap. The additional space scales linearly with the input size.\"\n\nYour solution should be efficient, well-commented, and handle edge cases.\n"

set_option maxRecDepth 40000 in
/-- The solution prompt with all fields absent decomposes into literal
segments around the two language slots, each slot preceded by a space and
followed by a newline. -/
theorem solutionPrompt_decomp (lang : String) :
    (buildSolutionPrompt ⟨none, none, none, none⟩ lang).data =
      solA.data ++ ([' '] ++ (lang.data ++ (['\n'] ++ (solB.data ++ ([' '] ++
        (lang.data ++ (['\n'] ++ solC.data))))))) := by
  simp only [buildSolutionPrompt, orFallback, solA, solB, solC, String.data_append,
    List.append_assoc, List.cons_append, List.nil_append]

/-! ## Theorems for claim C9 -/

set_option maxRecDepth 40000 in
/-- Counterexample to claim C9 as stated: with the target language string
itself equal to "undefined", the solution prompt does contain the literal
substring "undefined" even though all optional fields are absent. -/
theorem buildSolutionPrompt_claim_counterexample :
    containsSub (buildSolutionPrompt ⟨none, none, none, none⟩ "undefined")
      "undefined" = true := by decide

set_option maxRecDepth 40000 in
/-- Claim C9 as amended: for every target language string that does not
itself contain "undefined", the all-defaults solution prompt contains the
language, contains each of the four fallback texts, and does not contain
the substring "undefined"; and the extraction system prompt without context
differs from the with-context variant and does not claim context was
provided. -/
theorem promptBuilders_amended (language ctx : String)
    (hlang : containsSub language "undefined" = false) (hctx : ctx ≠ "") :
    containsSub (buildSolutionPrompt ⟨none, none, none, none⟩ language) language = true ∧
    containsSub (buildSolutionPrompt ⟨none, none, none, none⟩ language)
      "No problem statement provided." = true ∧
    containsSub (buildSolutionPrompt ⟨none, none, none, none⟩ language)
      "No specific constraints provided." = true ∧
    containsSub (buildSolutionPrompt ⟨none, none, none, none⟩ language)
      "No example input provided." = true ∧
    containsSub (buildSolutionPrompt ⟨none, none, none, none⟩ language)
      "No example output provided." = true ∧
    containsSub (buildSolutionPrompt ⟨none, none, none, none⟩ language)
      "undefined" = false ∧
    (buildExtractionPrompt language (some ctx)).systemPrompt ≠
      (buildExtractionPrompt language none).systemPrompt ∧
    containsSub (buildExtractionPrompt language none).systemPrompt
      "context provided" = false := by
  have hd := solutionPrompt_decomp language
  have hocc : ∀ pat : String, OccursIn pat.data
      (buildSolutionPrompt ⟨none, none, none, none⟩ language).data →
      containsSub (buildSolutionPrompt ⟨none, none, none, none⟩ language) pat = true :=
    fun pat h => (listContains_iff _ _).mpr h
  refine ⟨?_, ?_, ?_, ?_, ?_, ?_, ?_, ?_⟩
  · refine hocc language ?_
    rw [hd]
    exact ⟨solA.data ++ [' '],
      ['\n'] ++ (solB.data ++ ([' '] ++ (language.data ++ (['\n'] ++ solC.data)))),
      by simp [List.append_assoc]⟩
  · refine hocc "No problem statement provided." ?_
    rw [hd]
    exact occursIn_append_left ((listContains_iff _ _).mp (by decide)) _
  · refine hocc "No specific constraints provided." ?_
    rw [hd]
    exact occursIn_append_left ((listContains_iff _ _).mp (by decide)) _
  · refine hocc "No example input provided." ?_
    rw [hd]
    exact occursIn_append_left ((listContains_iff _ _).mp (by decide)) _
  · refine hocc "No example output provided." ?_
    rw [hd]
    exact occursIn_append_left ((listContains_iff _ _).mp (by decide)) _
  · have hlang2 : ¬ OccursIn ("undefined").data language.data := fun h => by
      have hl : listContains ("undefined").data language.data = false := hlang
      rw [(listContains_iff _ _).mpr h] at hl
      exact Bool.true_eq_false.mp hl
    have hfree : ¬ OccursIn ("undefined").data
        (buildSolutionPrompt ⟨none, none, none, none⟩ language).data := by
      rw [hd]
      refine not_occursIn_glueS (by decide)
        (fun h => absurd ((listContains_iff _ _).mpr h) (by decide)) ?_
      refine not_occursIn_glueS (by decide) hlang2 ?_
      refine not_occursIn_glueS (by decide)
        (fun h => absurd ((listContains_iff _ _).mpr h) (by decide)) ?_
      exact not_occursIn_glueS (by decide) hlang2
        (fun h => absurd ((listContains_iff _ _).mpr h) (by decide))
    exact Bool.eq_false_iff.mpr fun h => hfree ((listContains_iff _ _).mp h)
  · have h1 : (buildExtractionPrompt language (some ctx)).systemPrompt =
        replaceFirstStr baseSystemPrompt "Return the information"
          "Consider the conversation context provided. Return the information" := by
      simp [buildExtractionPrompt, hctx]
    have h2 : (buildExtractionPrompt language none).systemPrompt = baseSystemPrompt := rfl
    rw [h1, h2]
    decide
  · rw [show (buildExtractionPrompt language none).systemPrompt = baseSystemPrompt from rfl]
    decide

/-- Witness for claim C9 at a concrete language and context. -/
theorem promptBuilders_amended_witness :
    containsSub (buildSolutionPrompt ⟨none, none, none, none⟩ "python")
      "undefined" = false ∧
    (buildExtractionPrompt "python" (some "prior discussion")).systemPrompt ≠
      (buildExtractionPrompt "python" none).systemPrompt :=
  ⟨(promptBuilders_amended "python" "prior discussion" (by decide) (by decide)).2.2.2.2.2.1,
    (promptBuilders_amended "python" "prior discussion" (by decide)
      (by decide)).2.2.2.2.2.2.1⟩

/-! ## Theorem for claim C4 -/

/-- Claim C4: parseProblemInfoResponse never yields anything but a plain
object or nothing — totality is by construction, parse failures and
non-object values (arrays, primitives) yield nothing — together with the
three concrete examples from the specification: a fenced JSON object is
stripped and parsed, a non-JSON text yields nothing, and a JSON array is
rejected. -/
theorem parseProblemInfoResponse_spec :
    (∀ s : String, parsedIsObjOrNone (parseProblemInfoResponse s) = true) ∧
    parseProblemInfoResponse "```json\n\x7b\"problem_statement\":\"Two Sum\"\x7d\n```" =
      some (.vObj [("problem_statement", .vStr "Two Sum")]) ∧
    parseProblemInfoResponse "not json" = none ∧
    parseProblemInfoResponse "[1,2]" = none := by
  refine ⟨fun s => ?_, rfl, rfl, rfl⟩
  unfold parseProblemInfoResponse
  cases jsonParse (extractJsonCandidate s) with
  | none => rfl
  | some v =>
    cases hv : isPlainObject v with
    | true => simp [parsedIsObjOrNone, hv]
    | false => simp [parsedIsObjOrNone, hv]

/-! ## Theorems for claims C5, C6, C7 and C10 -/

/-- Claim C5 (code bug): the per-entry replace that is meant to strip the
bullet marker is anchored at the start of the matched string, but every
match after the first line begins with the newline the pattern consumed, so
the marker survives. First conjunct: the failing input, where the code
returns the entry with its marker intact. Second conjunct: a first-line
bullet, where the marker is stripped as intended. -/
theorem extractThoughts_marker_bug :
    extractThoughts "intro\n- one" = ["- one"] ∧
    extractThoughts "- one" = ["one"] :=
  ⟨rfl, rfl⟩

/-- The claim C6 guard: whether some line of the text is a markdown heading,
meaning a line starting with hash-space or hash-hash-space. -/
def hasMarkdownHeadingLine (s : String) : Bool :=
  (splitLines s.data).any fun seg =>
    ("# ").data.isPrefixOf seg.1 || ("## ").data.isPrefixOf seg.1

/-- normalizeDebugContent as claim C6 states it: unchanged exactly when the
text contains a markdown heading line, else the synonym rewrite. -/
def normalizeDebugContentClaim (s : String) : String :=
  if hasMarkdownHeadingLine s then s else rewriteSectionSynonyms s

/-- Counterexample to claim C6 as stated: a text whose only hash-space
occurs mid-line, so it contains no markdown heading, together with a synonym
line. The claim says the synonym line is rewritten; the code returns the
text unchanged because it only tests for the substring hash-space. -/
theorem normalizeDebugContent_claim_counterexample :
    normalizeDebugContent "see # note\nissues identified" =
      "see # note\nissues identified" ∧
    normalizeDebugContentClaim "see # note\nissues identified" =
      "see # note\n## Issues Identified" ∧
    normalizeDebugContent "see # note\nissues identified" ≠
      normalizeDebugContentClaim "see # note\nissues identified" := by
  refine ⟨rfl, rfl, ?_⟩
  decide

/-- Claim C6 as amended: normalizeDebugContent returns the input unchanged
whenever the input contains the substring hash-space or hash-hash-space
anywhere (even mid-line); otherwise it rewrites case-insensitive whole-line
matches of the known section-name synonyms to canonical heading lines,
leaving all other lines unchanged. -/
theorem normalizeDebugContent_amended (s : String) :
    normalizeDebugContent s =
      if containsSub s "# " || containsSub s "## " then s
      else rewriteSectionSynonyms s :=
  normalizeDebugContent_eq s

/-- Claim C7: buildDebugResponse pins both complexity fields to the literal
debug-mode string, passes the extracted code through, and pairs the
normalized content with the thoughts extracted from it. -/
theorem buildDebugResponse_fields (extractedCode debugContent : String) :
    (buildDebugResponse extractedCode debugContent).time_complexity = "N/A - Debug mode" ∧
    (buildDebugResponse extractedCode debugContent).space_complexity = "N/A - Debug mode" ∧
    (buildDebugResponse extractedCode debugContent).code = extractedCode ∧
    (buildDebugResponse extractedCode debugContent).debug_analysis =
      normalizeDebugContent debugContent ∧
    (buildDebugResponse extractedCode debugContent).thoughts =
      extractThoughts (normalizeDebugContent debugContent) :=
  ⟨rfl, rfl, rfl, rfl, rfl⟩

/-- Claim C10: normalizeDebugContent is idempotent: a rewrite introduces a
canonical heading containing hash-space, so a second application returns
its input unchanged; and when nothing is rewritten the second application
repeats the identity. -/
theorem normalizeDebugContent_idempotent (s : String) :
    normalizeDebugContent (normalizeDebugContent s) = normalizeDebugContent s := by
  by_cases hg : (containsSub s "# " || containsSub s "## ") = true
  · have h1 : normalizeDebugContent s = s := by
      rw [normalizeDebugContent_eq s]; simp [hg]
    rw [h1, h1]
  · have h1 : normalizeDebugContent s = rewriteSectionSynonyms s := by
      rw [normalizeDebugContent_eq s]; simp [hg]
    rw [h1]
    have hOKm : SegsOK ((splitLines s.data).map
        (fun seg => (rewriteSectionLine seg.1, seg.2))) :=
      segsOK_map _ (segsOK_splitLines _) _ (fun q hq => rewriteSectionLine_termFree hq)
    have hsplit : splitLines (rewriteSectionSynonyms s).data =
        (splitLines s.data).map (fun seg => (rewriteSectionLine seg.1, seg.2)) := by
      rw [show (rewriteSectionSynonyms s).data =
            joinLines ((splitLines s.data).map
              (fun seg => (rewriteSectionLine seg.1, seg.2))) from rfl]
      exact splitLines_joinLines _ hOKm
    have hidem : rewriteSectionSynonyms (rewriteSectionSynonyms s) =
        rewriteSectionSynonyms s := by
      show String.mk (joinLines ((splitLines (rewriteSectionSynonyms s).data).map
          (fun seg => (rewriteSectionLine seg.1, seg.2)))) = rewriteSectionSynonyms s
      rw [hsplit, List.map_map]
      have hcomp : (splitLines s.data).map
            ((fun seg => (rewriteSectionLine seg.1, seg.2)) ∘
              (fun seg => (rewriteSectionLine seg.1, seg.2))) =
          (splitLines s.data).map (fun seg => (rewriteSectionLine seg.1, seg.2)) :=
        List.map_congr_left fun seg _ => by
          show (rewriteSectionLine (rewriteSectionLine seg.1), seg.2) =
            (rewriteSectionLine seg.1, seg.2)
          exact congrArg (fun q => (q, seg.2)) (rewriteSectionLine_idem seg.1)
      rw [hcomp]
      rfl
    rw [normalizeDebugContent_eq (rewriteSectionSynonyms s)]
    by_cases hgr : (containsSub (rewriteSectionSynonyms s) "# " ||
        containsSub (rewriteSectionSynonyms s) "## ") = true
    · simp [hgr]
    · simp [hgr, hidem]
